import Mathlib

/-!
# FormEase: submission endpoint and client form

A shallow embedding of `Backend/server.js`, `Backend/models/submission.js` and
`Frontend/src/Form.js`.

* JavaScript strings are Lean strings (sequences of code points; lone surrogates are
  not representable).  `length` counts UTF-16 code units, as in JavaScript.
* The effects of the request handler (the record it constructs, the collection it
  saves into) and of the form (the requests it sends) are explicit in the results.
* What the libraries and the outside world decide (the clock, whether the database
  write fails, what the network answers) is a parameter of the functions.
-/

namespace FormEase

/-! ## JavaScript string primitives -/

/-- The characters matched by `\s` and stripped by `String.prototype.trim`:
ECMAScript `WhiteSpace` and `LineTerminator`. -/
def isJsSpace (c : Char) : Bool :=
  let n := c.toNat
  n == 0x09 || n == 0x0A || n == 0x0B || n == 0x0C || n == 0x0D || n == 0x20 ||
  n == 0xA0 || n == 0x1680 || (0x2000 ≤ n && n ≤ 0x200A) || n == 0x2028 ||
  n == 0x2029 || n == 0x202F || n == 0x205F || n == 0x3000 || n == 0xFEFF

/-- Number of UTF-16 code units of one code point. -/
def utf16Units (c : Char) : Nat := if c.toNat < 0x10000 then 1 else 2

/-- The `length` property of a string: its number of UTF-16 code units. -/
def jsLengthList : List Char → Nat
  | [] => 0
  | c :: cs => utf16Units c + jsLengthList cs

/-- The `length` property of a string. -/
def jsLength (s : String) : Nat := jsLengthList s.data

/-- Removal of the trailing white space of a list of characters. -/
def trimEndList (cs : List Char) : List Char :=
  ((cs.reverse).dropWhile isJsSpace).reverse

/-- The function `trim` on lists of characters: leading and trailing white space removed. -/
def trimList (cs : List Char) : List Char :=
  trimEndList (cs.dropWhile isJsSpace)

/-- The method `String.prototype.trim`. -/
def jsTrim (s : String) : String := ⟨trimList s.data⟩

/-- Truthiness of a string: every string but the empty one. -/
def truthyStr (s : String) : Bool := s.data != []

/-- Truthiness of a property that is a string or `undefined`. -/
def truthyField : Option String → Bool
  | none => false
  | some s => truthyStr s

/-! ## Regular expressions of the shapes the sources use -/

/-- The regular expressions used by the sources: a character class, a class repeated one
or more times (`+`), and concatenation. -/
inductive RE where
  | cls (p : Char → Bool)
  | plus (p : Char → Bool)
  | seq (a b : RE)

/-- All proper ways of consuming one or more leading characters of the class: the inputs
left after 1, 2, ... characters of the leading run. -/
def plusRests (p : Char → Bool) : List Char → List (List Char)
  | [] => []
  | c :: cs => if p c then cs :: plusRests p cs else []

/-- A backtracking matcher: every input that can be left after the expression has matched
at the start of the input. -/
def RE.rests : RE → List Char → List (List Char)
  | .cls _, [] => []
  | .cls p, c :: cs => if p c then [cs] else []
  | .plus p, cs => plusRests p cs
  | .seq a b, cs => (a.rests cs).flatMap b.rests

/-- The test `/^r$/.test(s)`: some way of matching consumes the whole input. -/
def RE.test (r : RE) (s : String) : Bool := (r.rests s.data).any List.isEmpty

/-- The class `[^\s@]`. -/
def notSpaceAt (c : Char) : Bool := !isJsSpace c && c != '@'

/-- The class of the single character `c`. -/
def isChar (c : Char) : Char → Bool := fun d => d == c

/-- The call `s.replace(/\s+/g, r)` on lists of characters, as one scan from the left: a
white-space character that starts a match emits `r`, the following white-space characters
belong to the same (greedy) match and emit nothing, any other character is copied.
`inMatch` tells whether the previous character was consumed by a match. -/
def replaceSpaceRunsFrom (r : List Char) : Bool → List Char → List Char
  | _, [] => []
  | inMatch, c :: cs =>
    if isJsSpace c then
      if inMatch then replaceSpaceRunsFrom r true cs else r ++ replaceSpaceRunsFrom r true cs
    else c :: replaceSpaceRunsFrom r false cs

/-- The call `s.replace(/\s+/g, r)` on lists of characters. -/
def replaceSpaceRuns (r : List Char) (cs : List Char) : List Char :=
  replaceSpaceRunsFrom r false cs

/-! ## Backend: `models/submission.js` -/

/-- A document of the `Submission` model (`submissionSchema`). -/
structure Submission where
  name : String
  email : String
  message : String
  attachmentPath : Option String
  createdAt : Nat
  deriving DecidableEq, Repr

/-- The `required: true` validators of the schema: a required string path is invalid when
it is the empty string.  Returns the paths that fail. -/
def requiredFailures (doc : Submission) : List String :=
  (if truthyStr doc.name then [] else ["name"]) ++
  (if truthyStr doc.email then [] else ["email"]) ++
  (if truthyStr doc.message then [] else ["message"])

/-! ## Backend: `server.js` -/

/-- The file part of a multipart request, as the upload middleware receives it. -/
structure FilePart where
  originalname : String
  mimetype : String
  size : Nat
  deriving DecidableEq, Repr

/-- The value of `req.file` once the upload middleware has stored the file. -/
structure StoredFile where
  originalname : String
  mimetype : String
  filename : String
  path : String
  size : Nat
  deriving DecidableEq, Repr

/-- The text fields of `req.body`: each is a string, or `undefined` when the request does
not carry it. -/
structure Body where
  name : Option String
  email : Option String
  message : Option String
  deriving DecidableEq, Repr

/-- A `POST /api/form` request as it arrives: the text fields, the optional file part named
`attachment`, and the order of the parts in the body: whether the file part is read before
the text fields (the client form sends the text fields first). -/
structure Request where
  body : Body
  attachment : Option FilePart
  fileFirst : Bool
  deriving DecidableEq, Repr

/-- The request as the route handler sees it, after the upload middleware. -/
structure HandlerRequest where
  body : Body
  file : Option StoredFile
  deriving DecidableEq, Repr

/-- What the process does not decide: the upload directory, the two readings of the clock
(`Date.now()` in `storage.filename`, and the `createdAt` default), and the error, if any,
with which the database rejects the write of a document. -/
structure Env where
  uploadDir : String
  uploadTime : Nat
  createTime : Nat
  writeError : Submission → Option String

/-- The JSON bodies the handler sends: an object with an `error` member, or an object with
`success: true` and the saved document as `data`. -/
inductive ResponseBody where
  | error (msg : String)
  | success (data : Submission)
  deriving DecidableEq, Repr

/-- An HTTP response: status code and JSON body. -/
structure Response where
  status : Nat
  body : ResponseBody
  deriving DecidableEq, Repr

/-- The call `res.status(code).json(body)`. -/
def statusJson (code : Nat) (body : ResponseBody) : Response := ⟨code, body⟩

/-- The call `res.json(body)`: the status is left at its default, 200. -/
def json (body : ResponseBody) : Response := ⟨200, body⟩

/-- The list `allowed` in `fileFilter`; also `ALLOWED_FILE_TYPES` of the client. -/
def allowed : List String := ["application/pdf", "image/jpeg", "image/png"]

/-- The limit `limits.fileSize`. -/
def fileSizeLimit : Nat := 5 * 1024 * 1024

/-- The function `storage.filename`: the string form of `Date.now()`, a dash, and the
original name with each run of white space replaced by an underscore. -/
def filename (now : Nat) (file : FilePart) : String :=
  Nat.repr now ++ "-" ++ ⟨replaceSpaceRuns ['_'] file.originalname.data⟩

/-- The function `fileFilter`: `cb(null, true)` is `ok true`, `cb(new Error(m))` is
`error m`. -/
def fileFilter (file : FilePart) : Except String Bool :=
  if allowed.contains file.mimetype then .ok true
  else .error "Invalid file type. Only PDF, JPG, PNG allowed."

/-- Number of bytes of one code point in UTF-8. -/
def utf8Units (c : Char) : Nat :=
  if c.toNat < 0x80 then 1 else if c.toNat < 0x800 then 2 else if c.toNat < 0x10000 then 3 else 4

/-- Number of bytes of the value of a text field in the body of the request. -/
def byteLength (s : String) : Nat := (s.data.map utf8Units).sum

/-- The limit `limits.fieldSize` of the upload middleware.  The options passed to it set
only `fileSize`, so the limit on the value of a text field is the default, 1 MiB. -/
def fieldSizeLimit : Nat := 1024 * 1024

/-- Whether the value of a text field is longer than `limits.fieldSize`. -/
def fieldTooLong : Option String → Bool
  | none => false
  | some s => byteLength s > fieldSizeLimit

/-- Whether one of the three text fields is longer than `limits.fieldSize`. -/
def fieldsTooLong (body : Body) : Bool :=
  fieldTooLong body.name || fieldTooLong body.email || fieldTooLong body.message

/-- The text fields in the upload middleware: a value longer than `limits.fieldSize` is an
error. -/
def readFields (body : Body) : Except String Unit :=
  if fieldsTooLong body then .error "Field value too long" else .ok ()

/-- The file part in the upload middleware.  Without a file part `req.file` stays undefined.
With one, the filter runs first; an accepted file is stored under `uploadDir` with the name
given by `filename`, unless it is larger than `limits.fileSize`, which is an error. -/
def storeFile (env : Env) (attachment : Option FilePart) : Except String (Option StoredFile) :=
  match attachment with
  | none => .ok none
  | some part =>
    match fileFilter part with
    | .error e => .error e
    | .ok false => .ok none
    | .ok true =>
      if part.size > fileSizeLimit then .error "File too large"
      else
        let fname := filename env.uploadTime part
        .ok (some ⟨part.originalname, part.mimetype, fname,
          env.uploadDir ++ "/" ++ fname, part.size⟩)

/-- The middleware `upload.single("attachment")`: the parts of the body are read in their
order, and the first error ends the request: it is handed to `next`, so the route handler
does not run. -/
def uploadSingle (env : Env) (req : Request) : Except String HandlerRequest :=
  if req.fileFirst then
    match storeFile env req.attachment with
    | .error e => .error e
    | .ok file =>
      match readFields req.body with
      | .error e => .error e
      | .ok () => .ok ⟨req.body, file⟩
  else
    match readFields req.body with
    | .error e => .error e
    | .ok () =>
      match storeFile env req.attachment with
      | .error e => .error e
      | .ok file => .ok ⟨req.body, file⟩

/-- The construction `new Submission(...)` with the schema defaults: `createdAt` is the
clock reading.  The constructor does not throw; invalid documents are rejected by `save`. -/
def newSubmission (env : Env) (name email message : String) (attachmentPath : Option String) :
    Submission :=
  ⟨name, email, message, attachmentPath, env.createTime⟩

/-- The call `doc.save()`: the schema validators run, then the document is written.  The
result is the new content of the collection, or the error the promise rejects with. -/
def save (env : Env) (db : List Submission) (doc : Submission) : Except String (List Submission) :=
  if requiredFailures doc != [] then .error "Submission validation failed"
  else
    match env.writeError doc with
    | some e => .error e
    | none => .ok (db ++ [doc])

/-- What one run of the route handler does: the response it sends, the document it
constructed (if it got that far) and the content of the collection afterwards. -/
structure HandlerResult where
  response : Response
  constructed : Option Submission
  db : List Submission
  deriving DecidableEq, Repr

/-- The handler of `app.post("/api/form", ...)`. -/
def handler (env : Env) (db : List Submission) (req : HandlerRequest) : HandlerResult :=
  if !truthyField req.body.name || !truthyField req.body.email ||
      !truthyField req.body.message then
    ⟨statusJson 400 (.error "Missing required fields."), none, db⟩
  else
    match req.body.name, req.body.email, req.body.message with
    | some name, some email, some message =>
      let doc := newSubmission env name email message
        (match req.file with
         | some f => some f.path
         | none => none)
      match save env db doc with
      | .ok db' => ⟨json (.success doc), some doc, db'⟩
      | .error _ =>
        ⟨statusJson 500 (.error "Server error while saving submission."), some doc, db⟩
    | _, _, _ => ⟨statusJson 400 (.error "Missing required fields."), none, db⟩

/-- How a request to the route ends: an upload error handed to `next` (the handler did not
run), or the handler ran. -/
inductive RouteResult where
  | rejected (error : String) (db : List Submission)
  | handled (result : HandlerResult)
  deriving DecidableEq, Repr

/-- The route `POST /api/form`: the upload middleware, then the handler. -/
def postForm (env : Env) (db : List Submission) (req : Request) : RouteResult :=
  match uploadSingle env req with
  | .error e => .rejected e db
  | .ok hreq => .handled (handler env db hreq)

/-- The collection after a request to the route. -/
def RouteResult.dbAfter : RouteResult → List Submission
  | .rejected _ db => db
  | .handled r => r.db

/-- A string is blank when it is empty or made of white space only. -/
def isBlank (s : String) : Bool := s.data.all isJsSpace

/-- A text field is blank when it is absent or a blank string. -/
def blankField : Option String → Bool
  | none => true
  | some s => isBlank s

/-! ## Frontend: `Form.js` -/

/-- The constant `ALLOWED_FILE_TYPES`. -/
def ALLOWED_FILE_TYPES : List String := ["application/pdf", "image/jpeg", "image/png"]

/-- The constant `MAX_FILE_SIZE_MB`. -/
def MAX_FILE_SIZE_MB : Nat := 5

/-- The `File` chosen in the file input: its name, declared type and size in bytes. -/
structure ChosenFile where
  name : String
  type : String
  size : Nat
  deriving DecidableEq, Repr

/-- The `errors` object: one optional message per key the component ever sets. -/
structure Errors where
  name : Option String := none
  email : Option String := none
  message : Option String := none
  attachment : Option String := none
  form : Option String := none
  deriving DecidableEq, Repr

/-- The keys `Object.keys(errors)`. -/
def Errors.keys (e : Errors) : List String :=
  (if e.name.isSome then ["name"] else []) ++
  (if e.email.isSome then ["email"] else []) ++
  (if e.message.isSome then ["message"] else []) ++
  (if e.attachment.isSome then ["attachment"] else []) ++
  (if e.form.isSome then ["form"] else [])

/-- The state of the `Form` component (its seven `useState` cells). -/
structure FormState where
  name : String
  email : String
  message : String
  attachment : Option ChosenFile
  errors : Errors
  isSubmitting : Bool
  isSuccess : Bool
  deriving DecidableEq, Repr

/-- The state the component starts in. -/
def initialState : FormState := ⟨"", "", "", none, {}, false, false⟩

/-- The regular expression of `isValidEmail`, `^[^\s@]+@[^\s@]+\.[^\s@]+$`. -/
def emailRegex : RE :=
  .seq (.plus notSpaceAt) (.seq (.cls (isChar '@'))
    (.seq (.plus notSpaceAt) (.seq (.cls (isChar '.')) (.plus notSpaceAt))))

/-- The function `isValidEmail`. -/
def isValidEmail (email : String) : Bool := emailRegex.test email

/-- The name part of `validate`. -/
def validateName (st : FormState) (e : Errors) : Errors :=
  if !truthyStr (jsTrim st.name) then { e with name := some "Name is required." } else e

/-- The email part of `validate`. -/
def validateEmail (st : FormState) (e : Errors) : Errors :=
  if !truthyStr (jsTrim st.email) then { e with email := some "Email is required." }
  else if !isValidEmail st.email then { e with email := some "Invalid email format." }
  else e

/-- The message part of `validate`. -/
def validateMessage (st : FormState) (e : Errors) : Errors :=
  if !truthyStr (jsTrim st.message) then { e with message := some "Message is required." }
  else if jsLength (jsTrim st.message) < 20 then
    { e with message := some "Message must be at least 20 characters." }
  else e

/-- The attachment part of `validate`.  The size test divides by a power of two, which
is exact on the sizes a file can have, so it is a comparison of rationals. -/
def validateAttachment (st : FormState) (e : Errors) : Errors :=
  match st.attachment with
  | none => e
  | some attachment =>
    let e1 :=
      if !ALLOWED_FILE_TYPES.contains attachment.type then
        { e with attachment := some "Invalid file type (only PDF, JPG, PNG allowed)." }
      else e
    if (attachment.size : ℚ) / (1024 * 1024) > (MAX_FILE_SIZE_MB : ℚ) then
      { e1 with attachment := some ("File must be under " ++ Nat.repr MAX_FILE_SIZE_MB ++ " MB.") }
    else e1

/-- The function `validate`: the new state (with `errors` set to the object built) and the
value returned. -/
def validate (st : FormState) : FormState × Bool :=
  let newErrors : Errors :=
    validateAttachment st (validateMessage st (validateEmail st (validateName st {})))
  ({ st with errors := newErrors }, newErrors.keys.length == 0)

/-- The function `handleFileChange`: the first chosen file, or null. -/
def handleFileChange (files : Option (List ChosenFile)) (st : FormState) : FormState :=
  { st with attachment := (files.bind List.head?) }

/-- A value appended to a `FormData`. -/
inductive FormValue where
  | text (s : String)
  | file (f : ChosenFile)
  deriving DecidableEq, Repr

/-- A call of `fetch`: URL, method and the entries of the `FormData` body. -/
structure FetchRequest where
  url : String
  method : String
  body : List (String × FormValue)
  deriving DecidableEq, Repr

/-- The `error` member of the parsed response body, as far as the component looks at it. -/
inductive ErrorMember where
  /-- A falsy value that is not a string: no such member, `null`, `false`, `0`. -/
  | falsy
  /-- A string. -/
  | str (s : String)
  /-- Any other (truthy) value, with the string it converts to. -/
  | truthy (text : String)
  deriving DecidableEq, Repr

/-- How `response.json()` ends. -/
inductive JsonOutcome where
  /-- The promise rejects with an error with this message: the body is not JSON. -/
  | rejects (message : String)
  /-- The body is the JSON `null`; reading a member of it throws a `TypeError` with this
  message. -/
  | null (typeError : String)
  /-- Any other JSON value, with what reading its `error` member gives. -/
  | value (error : ErrorMember)
  deriving DecidableEq, Repr

/-- How a call of `fetch` ends: the promise rejects (no HTTP response), or a response
arrives, with its `ok` flag and body. -/
inductive FetchOutcome where
  | rejects (message : String)
  | response (ok : Bool) (body : JsonOutcome)
  deriving DecidableEq, Repr

/-- The value `result.error || "Server error"`, converted to a string by `new Error(...)`. -/
def errorOrDefault : ErrorMember → String
  | .falsy => "Server error"
  | .str s => if truthyStr s then s else "Server error"
  | .truthy text => text

/-- The body of the `try` block after the call of `fetch`: `ok ()` when it runs to its end,
`error m` when an error with message `m` is thrown. -/
def tryBody : FetchOutcome → Except String Unit
  | .rejects m => .error m
  | .response _ (.rejects m) => .error m
  | .response ok (.null typeError) => if !ok then .error typeError else .ok ()
  | .response ok (.value e) => if !ok then .error (errorOrDefault e) else .ok ()

/-- The `FormData` built by `handleSubmit`. -/
def formData (st : FormState) : List (String × FormValue) :=
  [("name", .text st.name), ("email", .text st.email), ("message", .text st.message)] ++
  (match st.attachment with
   | some attachment => [("attachment", .file attachment)]
   | none => [])

/-- The function `handleSubmit`: the state once the handler has finished, and the calls of
`fetch` it made.  `net` is the answer of the network to a call. -/
def handleSubmit (net : FetchRequest → FetchOutcome) (st : FormState) :
    FormState × List FetchRequest :=
  let st1 := { st with isSuccess := false }
  let (st2, valid) := validate st1
  if !valid then (st2, [])
  else
    let st3 := { st2 with isSubmitting := true }
    let request : FetchRequest := ⟨"http://localhost:3001/api/form", "POST", formData st⟩
    let st4 :=
      match tryBody (net request) with
      | .ok () =>
        { st3 with isSuccess := true, name := "", email := "", message := "",
                   attachment := none, errors := {} }
      | .error message =>
        { st3 with errors :=
            { form := some (if truthyStr message then message
                            else "Failed to submit. Please try again later.") } }
    ({ st4 with isSubmitting := false }, [request])

/-- The email shape in the words of the specification: a non-empty local part, an `@`, and
after it a `.` with at least one character on each side, with no white space and no `@`
inside any of the three parts, so that the whole has exactly one `@`. -/
def EmailShape (email : String) : Prop :=
  ∃ l d t : List Char, email.data = l ++ '@' :: (d ++ '.' :: t) ∧
    l ≠ [] ∧ d ≠ [] ∧ t ≠ [] ∧
    (∀ c ∈ l ++ (d ++ t), isJsSpace c = false ∧ c ≠ '@') ∧
    email.data.count '@' = 1

/-- The form state of the worked example of the specification. -/
def adaForm : FormState :=
  ⟨"Ada", "ada@example.com", "This message is definitely long enough.", none, {}, false, false⟩

/-- A text field the request lacks: it is absent, or it is the empty string. -/
def lacksField (f : Option String) : Prop := f = none ∨ f = some ""

/-- The value of a decimal digit character. -/
def digitVal (c : Char) : Nat := c.toNat - 48

/-- The number a list of decimal digit characters denotes. -/
def ofDigitChars (cs : List Char) : Nat := cs.foldl (fun a c => 10 * a + digitVal c) 0

/-- The sanitised name in the words of the specification, as a relation between the
original name and the result: a character that is not white space is kept, and a run of
white space (one or more white-space characters, not followed by another one) becomes one
underscore. -/
inductive RunsReplaced : List Char → List Char → Prop where
  | done : RunsReplaced [] []
  | keep (c : Char) (cs out : List Char) : isJsSpace c = false → RunsReplaced cs out →
      RunsReplaced (c :: cs) (c :: out)
  | run (c : Char) (run rest out : List Char) : isJsSpace c = true →
      (∀ d ∈ run, isJsSpace d = true) → (∀ d ∈ rest.head?, isJsSpace d = false) →
      RunsReplaced rest out → RunsReplaced (c :: (run ++ rest)) ('_' :: out)

/-- The error `validate` records for the name, if any. -/
def nameError (st : FormState) : Option String :=
  if !truthyStr (jsTrim st.name) then some "Name is required." else none

/-- The error `validate` records for the email, if any. -/
def emailError (st : FormState) : Option String :=
  if !truthyStr (jsTrim st.email) then some "Email is required."
  else if !isValidEmail st.email then some "Invalid email format."
  else none

/-- The error `validate` records for the message, if any. -/
def messageError (st : FormState) : Option String :=
  if !truthyStr (jsTrim st.message) then some "Message is required."
  else if jsLength (jsTrim st.message) < 20 then some "Message must be at least 20 characters."
  else none

/-- The error `validate` records for the attachment, if any: the size error overwrites the
type error. -/
def attachmentError (st : FormState) : Option String :=
  match st.attachment with
  | none => none
  | some attachment =>
    if (attachment.size : ℚ) / (1024 * 1024) > (MAX_FILE_SIZE_MB : ℚ) then
      some ("File must be under " ++ Nat.repr MAX_FILE_SIZE_MB ++ " MB.")
    else if !ALLOWED_FILE_TYPES.contains attachment.type then
      some "Invalid file type (only PDF, JPG, PNG allowed)."
    else none

/-- Whether `response.json()` resolved: the body of the response is JSON. -/
def JsonOutcome.parsed : JsonOutcome → Bool
  | .rejects _ => false
  | .null _ => true
  | .value _ => true

/-- The text a non-success response leads to in `errors.form`: the message the `try` block
throws with, or the last-resort text when that message is empty. -/
def formErrorText : JsonOutcome → String
  | .value (.str s) => if s = "" then "Server error" else s
  | .value .falsy => "Server error"
  | .value (.truthy text) =>
    if text = "" then "Failed to submit. Please try again later." else text
  | .rejects m => if m = "" then "Failed to submit. Please try again later." else m
  | .null m => if m = "" then "Failed to submit. Please try again later." else m

/-- The error message a response body provides: the `error` member of a JSON body, when it
is a non-empty string. -/
def providedError : JsonOutcome → Option String
  | .value (.str s) => if s = "" then none else some s
  | _ => none

/-! ## Theorems: the submission endpoint -/

theorem truthyStr_eq_true_iff (s : String) : truthyStr s = true ↔ s ≠ "" := by
  cases s with
  | mk l =>
    cases l with
    | nil => simp [truthyStr]
    | cons c cs =>
      simp only [truthyStr, ne_eq]
      constructor
      · intro _ h
        exact absurd (congrArg String.data h) (by simp)
      · intro _
        simp

theorem truthyField_eq_false_iff (f : Option String) :
    truthyField f = false ↔ lacksField f := by
  cases f with
  | none => simp [truthyField, lacksField]
  | some s =>
    have h := truthyStr_eq_true_iff s
    simp only [truthyField, lacksField, Option.some.injEq, false_or, reduceCtorEq]
    constructor
    · intro hf
      by_contra hne
      rw [h.mpr hne] at hf
      exact Bool.noConfusion hf
    · intro hs
      cases hb : truthyStr s with
      | false => rfl
      | true => exact absurd hs (h.mp hb)

theorem isBlank_empty : isBlank "" = true := by decide

theorem truthyStr_of_not_blank (s : String) (h : isBlank s = false) : truthyStr s = true := by
  rw [truthyStr_eq_true_iff]
  intro hs
  rw [hs, isBlank_empty] at h
  exact Bool.noConfusion h

theorem requiredFailures_nil (doc : Submission) (hn : truthyStr doc.name = true)
    (he : truthyStr doc.email = true) (hm : truthyStr doc.message = true) :
    requiredFailures doc = [] := by
  simp [requiredFailures, hn, he, hm]

/-- The handler on a request that passes the required-field check: the document is built
from the three fields and the stored path, and the response follows the result of `save`. -/
theorem handler_of_truthy (env : Env) (db : List Submission) (file : Option StoredFile)
    (n e m : String) (hn : truthyStr n = true) (he : truthyStr e = true)
    (hm : truthyStr m = true) :
    handler env db ⟨⟨some n, some e, some m⟩, file⟩ =
      match save env db (newSubmission env n e m (file.map (fun f => f.path))) with
      | .ok db' =>
        ⟨json (.success (newSubmission env n e m (file.map (fun f => f.path)))),
          some (newSubmission env n e m (file.map (fun f => f.path))), db'⟩
      | .error _ =>
        ⟨statusJson 500 (.error "Server error while saving submission."),
          some (newSubmission env n e m (file.map (fun f => f.path))), db⟩ := by
  cases file <;> simp [handler, truthyField, hn, he, hm]

theorem guard_of_lacking (body : Body)
    (h : lacksField body.name ∨ lacksField body.email ∨ lacksField body.message) :
    (!truthyField body.name || !truthyField body.email || !truthyField body.message) = true := by
  simp only [← truthyField_eq_false_iff] at h
  rcases h with h | h | h <;> simp [h]

theorem handler_of_guard (env : Env) (db : List Submission) (req : HandlerRequest)
    (h : (!truthyField req.body.name || !truthyField req.body.email ||
      !truthyField req.body.message) = true) :
    handler env db req = ⟨statusJson 400 (.error "Missing required fields."), none, db⟩ := by
  simp [handler, h]

/-- Claim C1.  When the body of the request lacks `name`, `email` or `message` (the field is
absent or the empty string), the handler answers with status 400 and the body
`error: "Missing required fields."`, constructs no Submission and leaves the collection as
it was. -/
theorem handler_missing_fields (env : Env) (db : List Submission) (req : HandlerRequest)
    (h : lacksField req.body.name ∨ lacksField req.body.email ∨ lacksField req.body.message) :
    handler env db req =
      ⟨⟨400, .error "Missing required fields."⟩, none, db⟩ := by
  have hguard := guard_of_lacking req.body h
  rw [handler_of_guard env db req hguard]
  rfl

theorem handler_missing_fields_witness :
    lacksField (some "") ∧
    handler ⟨"uploads", 1700000000000, 1700000000001, fun _ => none⟩ []
        ⟨⟨some "Ada", some "", some "hello"⟩, none⟩ =
      ⟨⟨400, .error "Missing required fields."⟩, none, []⟩ :=
  ⟨Or.inr rfl, handler_missing_fields _ _ _ (Or.inr (Or.inl (Or.inr rfl)))⟩

theorem readFields_ok (body : Body) (h : fieldsTooLong body = false) :
    readFields body = .ok () := by
  simp [readFields, h]

theorem uploadSingle_no_file (env : Env) (body : Body) (first : Bool)
    (h : fieldsTooLong body = false) :
    uploadSingle env ⟨body, none, first⟩ = .ok ⟨body, none⟩ := by
  cases first <;> simp [uploadSingle, storeFile, readFields_ok body h]

theorem uploadSingle_body (env : Env) (req : Request) (hreq : HandlerRequest)
    (h : uploadSingle env req = .ok hreq) : hreq.body = req.body := by
  unfold uploadSingle at h
  split at h
  · split at h
    · exact Except.noConfusion h
    · split at h
      · exact Except.noConfusion h
      · injection h with h
        rw [← h]
  · split at h
    · exact Except.noConfusion h
    · split at h
      · exact Except.noConfusion h
      · injection h with h
        rw [← h]

theorem handler_success (env : Env) (db : List Submission) (file : Option StoredFile)
    (n e m : String) (hn : truthyStr n = true) (he : truthyStr e = true)
    (hm : truthyStr m = true)
    (hw : env.writeError (newSubmission env n e m (file.map (fun f => f.path))) = none) :
    handler env db ⟨⟨some n, some e, some m⟩, file⟩ =
      ⟨⟨200, .success (newSubmission env n e m (file.map (fun f => f.path)))⟩,
        some (newSubmission env n e m (file.map (fun f => f.path))),
        db ++ [newSubmission env n e m (file.map (fun f => f.path))]⟩ := by
  have hs : save env db (newSubmission env n e m (file.map (fun f => f.path))) =
      .ok (db ++ [newSubmission env n e m (file.map (fun f => f.path))]) := by
    simp [save, requiredFailures_nil (newSubmission env n e m (file.map (fun f => f.path)))
      hn he hm, hw]
  rw [handler_of_truthy env db file n e m hn he hm, hs]
  rfl

/-- Claim C2.  On a request with non-blank `name`, `email` and `message` and no attached
file, when the database accepts the write, the handler answers with status 200 and
`success: true`; the returned record carries the submitted values and `attachmentPath: null`,
and it is the one record added to the collection.  The route as a whole gives this answer
whenever the upload middleware lets the request through, that is when no field is longer
than its field size limit. -/
theorem no_attachment_success (env : Env) (db : List Submission) (n e m : String)
    (hn : isBlank n = false) (he : isBlank e = false) (hm : isBlank m = false)
    (hw : env.writeError ⟨n, e, m, none, env.createTime⟩ = none) :
    handler env db ⟨⟨some n, some e, some m⟩, none⟩ =
      ⟨⟨200, .success ⟨n, e, m, none, env.createTime⟩⟩,
        some ⟨n, e, m, none, env.createTime⟩, db ++ [⟨n, e, m, none, env.createTime⟩]⟩ ∧
    ∀ first : Bool, fieldsTooLong ⟨some n, some e, some m⟩ = false →
      postForm env db ⟨⟨some n, some e, some m⟩, none, first⟩ =
        .handled ⟨⟨200, .success ⟨n, e, m, none, env.createTime⟩⟩,
          some ⟨n, e, m, none, env.createTime⟩, db ++ [⟨n, e, m, none, env.createTime⟩]⟩ := by
  have hh := handler_success env db none n e m (truthyStr_of_not_blank n hn)
    (truthyStr_of_not_blank e he) (truthyStr_of_not_blank m hm) hw
  simp only [Option.map_none', newSubmission] at hh
  refine ⟨hh, ?_⟩
  intro first hlim
  simp only [postForm, uploadSingle_no_file env _ first hlim]
  rw [hh]

theorem no_attachment_success_witness :
    isBlank "Ada" = false ∧
    handler ⟨"uploads", 1700000000000, 1700000000001, fun _ => none⟩ []
        ⟨⟨some "Ada", some "ada@example.com", some "Hello there"⟩, none⟩ =
      ⟨⟨200, .success ⟨"Ada", "ada@example.com", "Hello there", none, 1700000000001⟩⟩,
        some ⟨"Ada", "ada@example.com", "Hello there", none, 1700000000001⟩,
        [] ++ [⟨"Ada", "ada@example.com", "Hello there", none, 1700000000001⟩]⟩ ∧
    postForm ⟨"uploads", 1700000000000, 1700000000001, fun _ => none⟩ []
        ⟨⟨some "Ada", some "ada@example.com", some "Hello there"⟩, none, false⟩ =
      .handled ⟨⟨200, .success ⟨"Ada", "ada@example.com", "Hello there", none, 1700000000001⟩⟩,
        some ⟨"Ada", "ada@example.com", "Hello there", none, 1700000000001⟩,
        [] ++ [⟨"Ada", "ada@example.com", "Hello there", none, 1700000000001⟩]⟩ :=
  ⟨by decide,
   (no_attachment_success ⟨"uploads", 1700000000000, 1700000000001, fun _ => none⟩ []
     "Ada" "ada@example.com" "Hello there" (by decide) (by decide) (by decide) rfl).1,
   (no_attachment_success ⟨"uploads", 1700000000000, 1700000000001, fun _ => none⟩ []
     "Ada" "ada@example.com" "Hello there" (by decide) (by decide) (by decide) rfl).2
     false (by decide)⟩

theorem allowed_contains_iff (t : String) :
    allowed.contains t = true ↔
      (t = "application/pdf" ∨ t = "image/jpeg" ∨ t = "image/png") := by
  simp [allowed]

theorem uploadSingle_filter_error (env : Env) (body : Body) (part : FilePart) (first : Bool)
    (err : String) (hf : fileFilter part = .error err) :
    (∃ e, uploadSingle env ⟨body, some part, first⟩ = .error e) ∧
    (fieldsTooLong body = false ∨ first = true →
      uploadSingle env ⟨body, some part, first⟩ = .error err) := by
  have hstore : storeFile env (some part) = .error err := by
    simp [storeFile, hf]
  cases first with
  | true =>
    have h : uploadSingle env ⟨body, some part, true⟩ = .error err := by
      simp [uploadSingle, hstore]
    exact ⟨⟨err, h⟩, fun _ => h⟩
  | false =>
    cases hlim : fieldsTooLong body with
    | true =>
      refine ⟨⟨"Field value too long", by simp [uploadSingle, readFields, hlim]⟩, ?_⟩
      intro h
      rcases h with h | h
      · exact Bool.noConfusion h
      · exact Bool.noConfusion h
    | false =>
      have h : uploadSingle env ⟨body, some part, false⟩ = .error err := by
        simp [uploadSingle, readFields, hlim, hstore]
      exact ⟨⟨err, h⟩, fun _ => h⟩

/-- Claim C3.  The upload filter accepts a file exactly when its declared content type is
`application/pdf`, `image/jpeg` or `image/png`.  For a file of any other type the filter
yields an error, the request ends in the upload middleware with an error (the route handler
does not run), and the collection is left as it was: no Submission is created.  The error
the request ends with is the one of the filter, unless a text field longer than the field
size limit was read before the file. -/
theorem fileFilter_allow_list (part : FilePart) :
    (fileFilter part = .ok true ↔
      (part.mimetype = "application/pdf" ∨ part.mimetype = "image/jpeg" ∨
        part.mimetype = "image/png")) ∧
    (¬ (part.mimetype = "application/pdf" ∨ part.mimetype = "image/jpeg" ∨
        part.mimetype = "image/png") →
      fileFilter part = .error "Invalid file type. Only PDF, JPG, PNG allowed." ∧
      ∀ (env : Env) (db : List Submission) (body : Body) (first : Bool),
        (∃ e, postForm env db ⟨body, some part, first⟩ = .rejected e db) ∧
        (postForm env db ⟨body, some part, first⟩).dbAfter = db ∧
        (fieldsTooLong body = false ∨ first = true →
          postForm env db ⟨body, some part, first⟩ =
            .rejected "Invalid file type. Only PDF, JPG, PNG allowed." db)) := by
  have hiff := allowed_contains_iff part.mimetype
  refine ⟨?_, ?_⟩
  · rw [← hiff]
    unfold fileFilter
    cases allowed.contains part.mimetype <;> simp
  · intro hnot
    rw [← hiff] at hnot
    have hf : fileFilter part = .error "Invalid file type. Only PDF, JPG, PNG allowed." := by
      unfold fileFilter
      rw [if_neg hnot]
    refine ⟨hf, ?_⟩
    intro env db body first
    obtain ⟨⟨e, he⟩, hexact⟩ := uploadSingle_filter_error env body part first _ hf
    have hp : postForm env db ⟨body, some part, first⟩ = .rejected e db := by
      simp [postForm, he]
    refine ⟨⟨e, hp⟩, by rw [hp]; rfl, ?_⟩
    intro hcond
    simp [postForm, hexact hcond]

theorem fileFilter_allow_list_witness :
    fileFilter ⟨"cv.pdf", "application/pdf", 1000⟩ = .ok true ∧
    postForm ⟨"uploads", 1700000000000, 1700000000001, fun _ => none⟩ []
        ⟨⟨some "Ada", some "ada@example.com", some "Hello there"⟩,
          some ⟨"run.exe", "application/x-msdownload", 1000⟩, false⟩ =
      .rejected "Invalid file type. Only PDF, JPG, PNG allowed." [] :=
  ⟨(fileFilter_allow_list ⟨"cv.pdf", "application/pdf", 1000⟩).1.mpr (Or.inl rfl),
   (((fileFilter_allow_list ⟨"run.exe", "application/x-msdownload", 1000⟩).2
      (by decide)).2
      ⟨"uploads", 1700000000000, 1700000000001, fun _ => none⟩ []
      ⟨some "Ada", some "ada@example.com", some "Hello there"⟩ false).2.2
      (Or.inl (by decide))⟩

/-- Claim C5.  For a request that passes the required-field check, whenever `save` fails,
with whatever error, the handler answers with status 500 and the body
`error: "Server error while saving submission."`; two runs that fail with different errors
send the same response, so the response carries nothing of the error. -/
theorem handler_save_failure_generic (env₁ env₂ : Env) (db : List Submission)
    (file : Option StoredFile) (n e m : String)
    (hn : truthyField (some n) = true) (he : truthyField (some e) = true)
    (hm : truthyField (some m) = true) (err₁ err₂ : String)
    (h₁ : save env₁ db (newSubmission env₁ n e m (file.map (fun f => f.path))) = .error err₁)
    (h₂ : save env₂ db (newSubmission env₂ n e m (file.map (fun f => f.path))) = .error err₂) :
    (handler env₁ db ⟨⟨some n, some e, some m⟩, file⟩).response =
      ⟨500, .error "Server error while saving submission."⟩ ∧
    (handler env₁ db ⟨⟨some n, some e, some m⟩, file⟩).db = db ∧
    (handler env₁ db ⟨⟨some n, some e, some m⟩, file⟩).response =
      (handler env₂ db ⟨⟨some n, some e, some m⟩, file⟩).response := by
  simp only [truthyField] at hn he hm
  rw [handler_of_truthy env₁ db file n e m hn he hm,
    handler_of_truthy env₂ db file n e m hn he hm, h₁, h₂]
  exact ⟨rfl, rfl, rfl⟩

theorem handler_save_failure_generic_witness :
    (handler ⟨"uploads", 1, 2, fun _ => some "E11000 duplicate key error"⟩ []
        ⟨⟨some "Ada", some "ada@example.com", some "Hello there"⟩, none⟩).response =
      ⟨500, .error "Server error while saving submission."⟩ ∧
    (handler ⟨"uploads", 1, 2, fun _ => some "E11000 duplicate key error"⟩ []
        ⟨⟨some "Ada", some "ada@example.com", some "Hello there"⟩, none⟩).db = [] ∧
    (handler ⟨"uploads", 1, 2, fun _ => some "E11000 duplicate key error"⟩ []
        ⟨⟨some "Ada", some "ada@example.com", some "Hello there"⟩, none⟩).response =
    (handler ⟨"uploads", 3, 4, fun _ => some "connection refused 127.0.0.1:27017"⟩ []
        ⟨⟨some "Ada", some "ada@example.com", some "Hello there"⟩, none⟩).response :=
  handler_save_failure_generic _ _ [] none "Ada" "ada@example.com" "Hello there"
    (by decide) (by decide) (by decide) "E11000 duplicate key error"
    "connection refused 127.0.0.1:27017" rfl rfl

theorem save_ok_eq (env : Env) (db db' : List Submission) (doc : Submission)
    (h : save env db doc = .ok db') : db' = db ++ [doc] := by
  unfold save at h
  split at h
  · exact Except.noConfusion h
  · split at h
    · exact Except.noConfusion h
    · injection h with h
      exact h.symm

/-- Claim C4, as stated, fails: a request whose three fields are a single space (blank, but
not empty) is answered with status 200 and its record is saved. -/
theorem blank_fields_saved :
    blankField (some " ") = true ∧
    handler ⟨"uploads", 1700000000000, 1700000000001, fun _ => none⟩ []
        ⟨⟨some " ", some " ", some " "⟩, none⟩ =
      ⟨⟨200, .success ⟨" ", " ", " ", none, 1700000000001⟩⟩,
        some ⟨" ", " ", " ", none, 1700000000001⟩,
        [⟨" ", " ", " ", none, 1700000000001⟩]⟩ ∧
    (handler ⟨"uploads", 1700000000000, 1700000000001, fun _ => none⟩ []
        ⟨⟨some " ", some " ", some " "⟩, none⟩).response.status ≠ 400 ∧
    (handler ⟨"uploads", 1700000000000, 1700000000001, fun _ => none⟩ []
        ⟨⟨some " ", some " ", some " "⟩, none⟩).db ≠ [] := by
  refine ⟨by decide, rfl, by decide, by decide⟩

theorem handler_db_invariant (env : Env) (db : List Submission) (req : HandlerRequest) :
    (handler env db req).db = db ∨
      ∃ doc, (handler env db req).db = db ++ [doc] ∧
        doc.name ≠ "" ∧ doc.email ≠ "" ∧ doc.message ≠ "" := by
  by_cases h : lacksField req.body.name ∨ lacksField req.body.email ∨
      lacksField req.body.message
  · left
    rw [handler_of_guard env db req (guard_of_lacking req.body h)]
  · obtain ⟨⟨name, email, message⟩, file⟩ := req
    simp only [not_or, ← truthyField_eq_false_iff, Bool.not_eq_false] at h
    obtain ⟨hn, he, hm⟩ := h
    cases name with
    | none => exact Bool.noConfusion hn
    | some n =>
      cases email with
      | none => exact Bool.noConfusion he
      | some e =>
        cases message with
        | none => exact Bool.noConfusion hm
        | some m =>
          simp only [truthyField] at hn he hm
          rw [handler_of_truthy env db file n e m hn he hm]
          cases hs : save env db (newSubmission env n e m (file.map (fun f => f.path))) with
          | error err => left; rfl
          | ok db' =>
            right
            refine ⟨newSubmission env n e m (file.map (fun f => f.path)),
              save_ok_eq env db db' _ hs, ?_, ?_, ?_⟩
            · exact (truthyStr_eq_true_iff n).mp hn
            · exact (truthyStr_eq_true_iff e).mp he
            · exact (truthyStr_eq_true_iff m).mp hm

/-- Claim C4, amended.  For every request to the endpoint in which `name`, `email` or
`message` is absent or the empty string, nothing is persisted: the request ends with the
error of the upload middleware, or, when the middleware passes it to the handler, with
status 400 and the missing-fields body.  Whatever the request, the endpoint either leaves
the collection as it was or adds one record whose `name`, `email` and `message` are not the
empty string.  And a field made of white space only is not rejected: a request without a
file whose three fields are non-empty, white space included, and within the field size
limit is answered with status 200 and its record is persisted, when the database accepts
the write. -/
theorem endpoint_persists_nonempty (env : Env) (db : List Submission) (req : Request) :
    ((lacksField req.body.name ∨ lacksField req.body.email ∨ lacksField req.body.message) →
      (postForm env db req).dbAfter = db ∧
      ((∃ e, postForm env db req = .rejected e db) ∨
        postForm env db req =
          .handled ⟨⟨400, .error "Missing required fields."⟩, none, db⟩) ∧
      (∀ hreq, uploadSingle env req = .ok hreq →
        postForm env db req =
          .handled ⟨⟨400, .error "Missing required fields."⟩, none, db⟩)) ∧
    ((postForm env db req).dbAfter = db ∨
      ∃ doc, (postForm env db req).dbAfter = db ++ [doc] ∧
        doc.name ≠ "" ∧ doc.email ≠ "" ∧ doc.message ≠ "") ∧
    (∀ n e m : String, n ≠ "" → e ≠ "" → m ≠ "" →
      req.body = ⟨some n, some e, some m⟩ → req.attachment = none →
      fieldsTooLong req.body = false →
      env.writeError ⟨n, e, m, none, env.createTime⟩ = none →
      postForm env db req =
        .handled ⟨⟨200, .success ⟨n, e, m, none, env.createTime⟩⟩,
          some ⟨n, e, m, none, env.createTime⟩, db ++ [⟨n, e, m, none, env.createTime⟩]⟩) := by
  refine ⟨?_, ?_, ?_⟩
  · intro h
    have h400 : ∀ hreq, uploadSingle env req = .ok hreq →
        postForm env db req =
          .handled ⟨⟨400, .error "Missing required fields."⟩, none, db⟩ := by
      intro hreq hu
      have hb := uploadSingle_body env req hreq hu
      have hguard := guard_of_lacking hreq.body (by rw [hb]; exact h)
      simp only [postForm, hu]
      rw [handler_of_guard env db hreq hguard]
      rfl
    cases hu : uploadSingle env req with
    | error e =>
      have hp : postForm env db req = .rejected e db := by simp [postForm, hu]
      exact ⟨by rw [hp]; rfl, Or.inl ⟨e, hp⟩, fun hreq hq => Except.noConfusion hq⟩
    | ok hreq =>
      have hp := h400 hreq hu
      exact ⟨by rw [hp]; rfl, Or.inr hp, fun hreq' hq => hp⟩
  · cases hu : uploadSingle env req with
    | error e =>
      left
      simp [postForm, hu, RouteResult.dbAfter]
    | ok hreq =>
      have hp : postForm env db req = .handled (handler env db hreq) := by
        simp [postForm, hu]
      rw [hp]
      exact handler_db_invariant env db hreq
  · intro n e m hn he hm hbody hatt hlim hw
    obtain ⟨body, attachment, first⟩ := req
    simp only at hbody hatt hlim
    subst hbody
    subst hatt
    have hh := handler_success env db none n e m ((truthyStr_eq_true_iff n).mpr hn)
      ((truthyStr_eq_true_iff e).mpr he) ((truthyStr_eq_true_iff m).mpr hm) hw
    simp only [Option.map_none', newSubmission] at hh
    simp only [postForm, uploadSingle_no_file env _ first hlim]
    rw [hh]

theorem endpoint_persists_nonempty_witness :
    lacksField none ∧
    postForm ⟨"uploads", 1700000000000, 1700000000001, fun _ => none⟩ []
        ⟨⟨none, some "ada@example.com", some "Hello there"⟩, none, false⟩ =
      .handled ⟨⟨400, .error "Missing required fields."⟩, none, []⟩ ∧
    postForm ⟨"uploads", 1700000000000, 1700000000001, fun _ => none⟩ []
        ⟨⟨some " ", some " ", some " "⟩, none, false⟩ =
      .handled ⟨⟨200, .success ⟨" ", " ", " ", none, 1700000000001⟩⟩,
        some ⟨" ", " ", " ", none, 1700000000001⟩,
        [] ++ [⟨" ", " ", " ", none, 1700000000001⟩]⟩ :=
  ⟨Or.inl rfl,
   ((endpoint_persists_nonempty ⟨"uploads", 1700000000000, 1700000000001, fun _ => none⟩ []
      ⟨⟨none, some "ada@example.com", some "Hello there"⟩, none, false⟩).1
      (Or.inl (Or.inl rfl))).2.2 ⟨⟨none, some "ada@example.com", some "Hello there"⟩, none⟩ rfl,
   (endpoint_persists_nonempty ⟨"uploads", 1700000000000, 1700000000001, fun _ => none⟩ []
      ⟨⟨some " ", some " ", some " "⟩, none, false⟩).2.2 " " " " " "
      (by decide) (by decide) (by decide) rfl rfl (by decide) rfl⟩

/-! ## Theorems: the stored file name -/

theorem digitChar_isDigit (d : Nat) (h : d < 10) :
    (Nat.digitChar d).isDigit = true ∧ digitVal (Nat.digitChar d) = d := by
  interval_cases d <;> decide

theorem toDigitsCore_append (fuel : Nat) : ∀ (n : Nat) (ds : List Char),
    Nat.toDigitsCore 10 fuel n ds = Nat.toDigitsCore 10 fuel n [] ++ ds := by
  induction fuel with
  | zero => intro n ds; simp [Nat.toDigitsCore]
  | succ fuel ih =>
    intro n ds
    simp only [Nat.toDigitsCore]
    split
    · simp
    · rw [ih (n / 10) (Nat.digitChar (n % 10) :: ds), ih (n / 10) [Nat.digitChar (n % 10)]]
      simp

theorem toDigitsCore_spec (fuel : Nat) : ∀ n : Nat, n < fuel →
    (∀ c ∈ Nat.toDigitsCore 10 fuel n [], c.isDigit = true) ∧
    ofDigitChars (Nat.toDigitsCore 10 fuel n []) = n := by
  induction fuel with
  | zero => intro n h; exact absurd h (Nat.not_lt_zero n)
  | succ fuel ih =>
    intro n hn
    have hd := digitChar_isDigit (n % 10) (Nat.mod_lt n (by decide))
    simp only [Nat.toDigitsCore]
    split
    · rename_i h0
      refine ⟨?_, ?_⟩
      · intro c hc
        simp only [List.mem_singleton] at hc
        rw [hc]; exact hd.1
      · simp only [ofDigitChars, List.foldl_cons, List.foldl_nil, hd.2]
        omega
    · rename_i h0
      have hlt : n / 10 < fuel := by omega
      obtain ⟨h1, h2⟩ := ih (n / 10) hlt
      rw [toDigitsCore_append]
      refine ⟨?_, ?_⟩
      · intro c hc
        rcases List.mem_append.mp hc with hc | hc
        · exact h1 c hc
        · simp only [List.mem_singleton] at hc
          rw [hc]; exact hd.1
      · unfold ofDigitChars at h2 ⊢
        rw [List.foldl_append, h2]
        simp only [List.foldl_cons, List.foldl_nil, hd.2]
        omega

theorem repr_digits (n : Nat) :
    (∀ c ∈ (Nat.repr n).data, c.isDigit = true) ∧ ofDigitChars (Nat.repr n).data = n := by
  have h := toDigitsCore_spec (n + 1) n (Nat.lt_succ_self n)
  simpa [Nat.repr, Nat.toDigits, List.asString] using h

theorem takeWhile_append_stop (p : Char → Bool) (x : Char) (hx : p x = false) :
    ∀ (ds r : List Char), (∀ c ∈ ds, p c = true) → (ds ++ x :: r).takeWhile p = ds := by
  intro ds
  induction ds with
  | nil => intro r _; simp [List.takeWhile, hx]
  | cons d ds ih =>
    intro r h
    have hd : p d = true := h d (List.mem_cons_self d ds)
    simp only [List.cons_append, List.takeWhile_cons, hd, if_true]
    rw [ih r (fun c hc => h c (List.mem_cons_of_mem d hc))]

theorem replaceFrom_true (r : List Char) : ∀ cs : List Char,
    replaceSpaceRunsFrom r true cs = replaceSpaceRunsFrom r false (cs.dropWhile isJsSpace) := by
  intro cs
  induction cs with
  | nil => rfl
  | cons c cs ih =>
    cases hc : isJsSpace c with
    | true => simp [replaceSpaceRunsFrom, List.dropWhile, hc, ih]
    | false => simp [replaceSpaceRunsFrom, List.dropWhile, hc]

theorem replaceSpaceRuns_cons (r : List Char) (c : Char) (cs : List Char) :
    replaceSpaceRuns r (c :: cs) =
      if isJsSpace c then r ++ replaceSpaceRuns r (cs.dropWhile isJsSpace)
      else c :: replaceSpaceRuns r cs := by
  cases hc : isJsSpace c with
  | true => simp [replaceSpaceRuns, replaceSpaceRunsFrom, hc, replaceFrom_true]
  | false => simp [replaceSpaceRuns, replaceSpaceRunsFrom, hc]

theorem replaceSpaceRuns_nil (r : List Char) : replaceSpaceRuns r [] = [] := rfl

theorem dropWhile_run_append (run rest : List Char) (hrun : ∀ d ∈ run, isJsSpace d = true)
    (hrest : ∀ d ∈ rest.head?, isJsSpace d = false) :
    (run ++ rest).dropWhile isJsSpace = rest := by
  induction run with
  | nil =>
    cases rest with
    | nil => rfl
    | cons d ds =>
      have hd : isJsSpace d = false := hrest d (by simp)
      simp [List.dropWhile, hd]
  | cons x xs ih =>
    have hx : isJsSpace x = true := hrun x (List.mem_cons_self x xs)
    simp only [List.cons_append, List.dropWhile_cons, hx, if_true]
    exact ih (fun d hd => hrun d (List.mem_cons_of_mem x hd))

theorem dropWhile_head_not_space (cs : List Char) :
    ∀ d ∈ (cs.dropWhile isJsSpace).head?, isJsSpace d = false := by
  induction cs with
  | nil => intro d hd; simp at hd
  | cons c cs ih =>
    cases hc : isJsSpace c with
    | true => simpa [List.dropWhile, hc] using ih
    | false =>
      intro d hd
      simp only [List.dropWhile, hc, List.head?_cons, Option.mem_def, Option.some.injEq] at hd
      rw [← hd]; exact hc

theorem takeWhile_all_space (cs : List Char) :
    ∀ d ∈ cs.takeWhile isJsSpace, isJsSpace d = true := by
  intro d hd
  exact List.mem_takeWhile_imp hd

theorem runsReplaced_replaceSpaceRuns : ∀ (k : Nat) (cs : List Char), cs.length ≤ k →
    RunsReplaced cs (replaceSpaceRuns ['_'] cs) := by
  intro k
  induction k with
  | zero =>
    intro cs h
    have : cs = [] := List.length_eq_zero.mp (Nat.le_zero.mp h)
    rw [this, replaceSpaceRuns_nil]
    exact RunsReplaced.done
  | succ k ih =>
    intro cs h
    cases cs with
    | nil => rw [replaceSpaceRuns_nil]; exact RunsReplaced.done
    | cons c cs =>
      have hlen : cs.length ≤ k := Nat.le_of_succ_le_succ h
      have hdrop : (cs.dropWhile isJsSpace).length ≤ k :=
        Nat.le_trans (List.Sublist.length_le (List.dropWhile_sublist _)) hlen
      rw [replaceSpaceRuns_cons]
      cases hc : isJsSpace c with
      | false =>
        simp only [Bool.false_eq_true, if_false]
        exact RunsReplaced.keep c cs _ hc (ih cs hlen)
      | true =>
        simp only [if_true, List.singleton_append]
        have hsplit : cs = cs.takeWhile isJsSpace ++ cs.dropWhile isJsSpace :=
          (List.takeWhile_append_dropWhile isJsSpace cs).symm
        have hr := RunsReplaced.run c (cs.takeWhile isJsSpace) (cs.dropWhile isJsSpace) _ hc
          (takeWhile_all_space cs) (dropWhile_head_not_space cs) (ih _ hdrop)
        rw [← hsplit] at hr
        exact hr

theorem runsReplaced_unique (cs out : List Char) (h : RunsReplaced cs out) :
    out = replaceSpaceRuns ['_'] cs := by
  induction h with
  | done => rfl
  | keep c cs out hc _ ih => rw [replaceSpaceRuns_cons, hc, ih]; rfl
  | run c run rest out hc hrun hrest _ ih =>
    rw [replaceSpaceRuns_cons, hc, dropWhile_run_append run rest hrun hrest, ih]
    rfl

/-- Claim C10.  The stored name is the decimal timestamp, a dash, and the original name in
which every run of white space has become one underscore; and two uploads with different
timestamps get different stored names, whatever their original names. -/
theorem filename_distinct_timestamps (t₁ t₂ : Nat) (f₁ f₂ : FilePart) :
    (∃ digits safe : List Char, (filename t₁ f₁).data = digits ++ '-' :: safe ∧
      (∀ c ∈ digits, c.isDigit = true) ∧ ofDigitChars digits = t₁ ∧
      ∀ out, RunsReplaced f₁.originalname.data out ↔ out = safe) ∧
    (t₁ ≠ t₂ → filename t₁ f₁ ≠ filename t₂ f₂) := by
  have hdata : ∀ (t : Nat) (f : FilePart), (filename t f).data =
      (Nat.repr t).data ++ '-' :: replaceSpaceRuns ['_'] f.originalname.data := by
    intro t f
    simp [filename, String.data_append]
  refine ⟨⟨(Nat.repr t₁).data, replaceSpaceRuns ['_'] f₁.originalname.data, hdata t₁ f₁,
    (repr_digits t₁).1, (repr_digits t₁).2, ?_⟩, ?_⟩
  · intro out
    constructor
    · exact runsReplaced_unique _ out
    · intro h
      rw [h]
      exact runsReplaced_replaceSpaceRuns _ _ (Nat.le_refl _)
  intro hne heq
  apply hne
  have h := congrArg String.data heq
  rw [hdata, hdata] at h
  have h' := congrArg (List.takeWhile Char.isDigit) h
  rw [takeWhile_append_stop Char.isDigit '-' (by decide) _ _ (repr_digits t₁).1,
    takeWhile_append_stop Char.isDigit '-' (by decide) _ _ (repr_digits t₂).1] at h'
  rw [← (repr_digits t₁).2, ← (repr_digits t₂).2, h']

theorem filename_distinct_timestamps_witness :
    (1700000000000 : Nat) ≠ 1700000000001 ∧
    filename 1700000000000 ⟨"my  cv.pdf", "application/pdf", 10⟩ ≠
      filename 1700000000001 ⟨"my  cv.pdf", "application/pdf", 10⟩ :=
  ⟨by decide,
   (filename_distinct_timestamps 1700000000000 1700000000001
      ⟨"my  cv.pdf", "application/pdf", 10⟩ ⟨"my  cv.pdf", "application/pdf", 10⟩).2
      (by decide)⟩

/-! ## Theorems: the regular expression of `isValidEmail` -/

theorem mem_plusRests (p : Char → Bool) (rest : List Char) : ∀ cs : List Char,
    rest ∈ plusRests p cs ↔
      ∃ pre : List Char, pre ≠ [] ∧ (∀ c ∈ pre, p c = true) ∧ cs = pre ++ rest := by
  intro cs
  induction cs with
  | nil =>
    simp only [plusRests, List.not_mem_nil, false_iff]
    rintro ⟨pre, hne, _, h⟩
    cases pre with
    | nil => exact hne rfl
    | cons x xs => simp at h
  | cons c cs ih =>
    cases hc : p c with
    | false =>
      simp only [plusRests, hc, Bool.false_eq_true, if_false, List.not_mem_nil, false_iff]
      rintro ⟨pre, hne, hall, h⟩
      cases pre with
      | nil => exact hne rfl
      | cons x xs =>
        simp only [List.cons_append, List.cons.injEq] at h
        have hx := hall x (List.mem_cons_self x xs)
        rw [← h.1, hc] at hx
        exact Bool.noConfusion hx
    | true =>
      simp only [plusRests, hc, if_true, List.mem_cons]
      constructor
      · rintro (h | h)
        · refine ⟨[c], by simp, ?_, by simp [h]⟩
          intro d hd
          simp only [List.mem_singleton] at hd
          rw [hd]; exact hc
        · obtain ⟨pre, _, hall, heq⟩ := ih.mp h
          refine ⟨c :: pre, by simp, ?_, by simp [heq]⟩
          intro d hd
          rcases List.mem_cons.mp hd with hd | hd
          · rw [hd]; exact hc
          · exact hall d hd
      · rintro ⟨pre, hne, hall, h⟩
        cases pre with
        | nil => exact absurd rfl hne
        | cons x xs =>
          simp only [List.cons_append, List.cons.injEq] at h
          cases xs with
          | nil => left; simpa using h.2.symm
          | cons y ys =>
            right
            exact ih.mpr ⟨y :: ys, by simp,
              fun d hd => hall d (List.mem_cons_of_mem x hd), h.2⟩

theorem mem_clsRests (p : Char → Bool) (rest cs : List Char) :
    rest ∈ (RE.cls p).rests cs ↔ ∃ c, p c = true ∧ cs = c :: rest := by
  cases cs with
  | nil => simp [RE.rests]
  | cons c cs =>
    cases hc : p c with
    | false =>
      simp only [RE.rests, hc, Bool.false_eq_true, if_false, List.not_mem_nil, false_iff]
      rintro ⟨d, hd, h⟩
      simp only [List.cons.injEq] at h
      rw [← h.1, hc] at hd
      exact Bool.noConfusion hd
    | true =>
      simp only [RE.rests, hc, if_true, List.mem_singleton, List.cons.injEq]
      constructor
      · intro h; exact ⟨c, hc, rfl, h.symm⟩
      · rintro ⟨d, _, _, h⟩; exact h.symm

theorem notSpaceAt_iff (c : Char) :
    notSpaceAt c = true ↔ (isJsSpace c = false ∧ c ≠ '@') := by
  simp [notSpaceAt]

theorem isValidEmail_iff (email : String) : isValidEmail email = true ↔ EmailShape email := by
  simp only [isValidEmail, RE.test, emailRegex, RE.rests, List.any_eq_true, List.mem_flatMap,
    List.isEmpty_iff, exists_eq_right, mem_plusRests, mem_clsRests, EmailShape, isChar,
    beq_iff_eq]
  constructor
  · rintro ⟨r1, ⟨l, hl, hlall, h1⟩, r2, ⟨c1, hc1, h2⟩, r3, ⟨d, hd, hdall, h3⟩, r4,
      ⟨c2, hc2, h4⟩, t, ht, htall, h5⟩
    have hdata : email.data = l ++ '@' :: (d ++ '.' :: t) := by
      rw [h1, h2, h3, h4, h5, hc1, hc2]; simp
    have hparts : ∀ c ∈ l ++ (d ++ t), isJsSpace c = false ∧ c ≠ '@' := by
      intro c hc
      rw [← notSpaceAt_iff]
      rcases List.mem_append.mp hc with hc | hc
      · exact hlall c hc
      · rcases List.mem_append.mp hc with hc | hc
        · exact hdall c hc
        · exact htall c hc
    refine ⟨l, d, t, hdata, hl, hd, ht, hparts, ?_⟩
    have hnot : ∀ xs : List Char, (∀ c ∈ xs, c ∈ l ++ (d ++ t)) → xs.count '@' = 0 := by
      intro xs hxs
      apply List.count_eq_zero_of_not_mem
      intro hmem
      exact (hparts '@' (hxs '@' hmem)).2 rfl
    rw [hdata, List.count_append, List.count_cons, List.count_append, List.count_cons,
      hnot l (fun c hc => by simp [hc]), hnot d (fun c hc => by simp [hc]),
      hnot t (fun c hc => by simp [hc])]
    decide
  · rintro ⟨l, d, t, h, hl, hd, ht, hall, _⟩
    refine ⟨'@' :: (d ++ '.' :: t), ⟨l, hl, ?_, h⟩, d ++ '.' :: t, ⟨'@', rfl, rfl⟩,
      '.' :: t, ⟨d, hd, ?_, rfl⟩, t, ⟨'.', rfl, rfl⟩, t, ht, ?_, by simp⟩
    · intro c hc
      exact (notSpaceAt_iff c).mpr (hall c (by simp [hc]))
    · intro c hc
      exact (notSpaceAt_iff c).mpr (hall c (by simp [hc]))
    · intro c hc
      exact (notSpaceAt_iff c).mpr (hall c (by simp [hc]))

/-! ## Theorems: `trim` and `length` -/

theorem jsLengthList_sublist {xs ys : List Char} (h : List.Sublist xs ys) :
    jsLengthList xs ≤ jsLengthList ys := by
  induction h with
  | slnil => exact Nat.le_refl _
  | cons a _ ih => exact Nat.le_trans ih (Nat.le_add_left _ _)
  | cons₂ a _ ih => exact Nat.add_le_add_left ih _

theorem trimList_sublist (cs : List Char) : List.Sublist (trimList cs) cs := by
  unfold trimList trimEndList
  refine List.Sublist.trans ?_ (List.dropWhile_sublist isJsSpace)
  have h := List.dropWhile_sublist isJsSpace (l := (cs.dropWhile isJsSpace).reverse)
  have h' := List.reverse_sublist.mpr h
  rwa [List.reverse_reverse] at h'

theorem jsLength_trim_le (s : String) : jsLength (jsTrim s) ≤ jsLength s :=
  jsLengthList_sublist (trimList_sublist s.data)

theorem trimList_eq_nil (cs : List Char) (h : trimList cs = []) :
    ∀ c ∈ cs, isJsSpace c = true := by
  unfold trimList trimEndList at h
  rw [List.reverse_eq_nil_iff, List.dropWhile_eq_nil_iff] at h
  have hdrop : cs.dropWhile isJsSpace = [] := by
    cases hd : cs.dropWhile isJsSpace with
    | nil => rfl
    | cons x xs =>
      have hx := dropWhile_head_not_space cs x (by simp [hd])
      have hx' := h x (by simp [hd])
      rw [hx] at hx'
      exact Bool.noConfusion hx'
  exact List.dropWhile_eq_nil_iff.mp hdrop

theorem truthyStr_eq_false_iff (s : String) : truthyStr s = false ↔ s = "" := by
  have h := truthyStr_eq_true_iff s
  cases hb : truthyStr s with
  | false =>
    simp only [true_iff]
    by_contra hne
    rw [h.mpr hne] at hb
    exact Bool.noConfusion hb
  | true =>
    simp only [Bool.true_eq_false, false_iff]
    exact h.mp hb

theorem jsLength_of_not_truthy (s : String) (h : truthyStr s = false) : jsLength s = 0 := by
  rw [(truthyStr_eq_false_iff s).mp h]
  rfl

theorem truthy_trim_of_emailShape (email : String) (h : EmailShape email) :
    truthyStr (jsTrim email) = true := by
  obtain ⟨l, d, t, hdata, hl, _, _, hall, _⟩ := h
  cases hb : truthyStr (jsTrim email) with
  | true => rfl
  | false =>
    exfalso
    have hnil : trimList email.data = [] := by
      simpa [truthyStr, jsTrim] using hb
    have hsp := trimList_eq_nil email.data hnil
    cases l with
    | nil => exact hl rfl
    | cons x xs =>
      have h1 := hsp x (by rw [hdata]; simp)
      have h2 := (hall x (by simp)).1
      rw [h1] at h2
      exact Bool.noConfusion h2

/-! ## Theorems: the client form -/

theorem validateName_eq (st : FormState) :
    validateName st {} = ⟨nameError st, none, none, none, none⟩ := by
  unfold validateName nameError
  split_ifs <;> rfl

theorem validateEmail_eq (st : FormState) (n : Option String) :
    validateEmail st ⟨n, none, none, none, none⟩ = ⟨n, emailError st, none, none, none⟩ := by
  unfold validateEmail emailError
  split_ifs <;> rfl

theorem validateMessage_eq (st : FormState) (n e : Option String) :
    validateMessage st ⟨n, e, none, none, none⟩ = ⟨n, e, messageError st, none, none⟩ := by
  unfold validateMessage messageError
  split_ifs <;> rfl

theorem validateAttachment_eq (st : FormState) (n e m : Option String) :
    validateAttachment st ⟨n, e, m, none, none⟩ = ⟨n, e, m, attachmentError st, none⟩ := by
  unfold validateAttachment attachmentError
  cases st.attachment with
  | none => rfl
  | some a =>
    simp only
    split_ifs <;> rfl

theorem validate_errors (st : FormState) :
    (validate st).1.errors =
      ⟨nameError st, emailError st, messageError st, attachmentError st, none⟩ := by
  simp only [validate]
  rw [validateName_eq, validateEmail_eq, validateMessage_eq, validateAttachment_eq]

theorem validate_returns (st : FormState) :
    (validate st).2 = ((nameError st).isNone && (emailError st).isNone &&
      (messageError st).isNone && (attachmentError st).isNone) := by
  have h := validate_errors st
  have h2 : (validate st).2 = ((validate st).1.errors.keys.length == 0) := rfl
  rw [h2, h]
  cases nameError st <;> cases emailError st <;> cases messageError st <;>
    cases attachmentError st <;> rfl

theorem nameError_none_iff (st : FormState) : nameError st = none ↔ jsTrim st.name ≠ "" := by
  rw [← truthyStr_eq_true_iff]
  unfold nameError
  cases truthyStr (jsTrim st.name) <;> simp

theorem emailError_none_iff (st : FormState) : emailError st = none ↔ EmailShape st.email := by
  rw [← isValidEmail_iff]
  unfold emailError
  cases hv : isValidEmail st.email with
  | false => cases truthyStr (jsTrim st.email) <;> simp
  | true =>
    rw [truthy_trim_of_emailShape st.email ((isValidEmail_iff st.email).mp hv)]
    simp

theorem messageError_none_iff (st : FormState) :
    messageError st = none ↔ 20 ≤ jsLength (jsTrim st.message) := by
  unfold messageError
  cases ht : truthyStr (jsTrim st.message) with
  | false =>
    have h0 := jsLength_of_not_truthy _ ht
    simp [h0]
  | true => simp [Nat.not_lt]

theorem allowedTypes_contains_iff (t : String) :
    ALLOWED_FILE_TYPES.contains t = true ↔
      (t = "application/pdf" ∨ t = "image/jpeg" ∨ t = "image/png") := by
  simp [ALLOWED_FILE_TYPES]

theorem size_over_limit_iff (n : Nat) :
    (n : ℚ) / (1024 * 1024) > (MAX_FILE_SIZE_MB : ℚ) ↔ 5 * 1024 * 1024 < n := by
  have hpos : (0 : ℚ) < 1024 * 1024 := by norm_num
  rw [gt_iff_lt, lt_div_iff₀ hpos]
  simp only [MAX_FILE_SIZE_MB, Nat.cast_ofNat]
  constructor
  · intro h
    have h' : ((5 * 1024 * 1024 : Nat) : ℚ) < (n : ℚ) := by
      push_cast
      linarith
    exact_mod_cast h'
  · intro h
    have h' : ((5 * 1024 * 1024 : Nat) : ℚ) < (n : ℚ) := by exact_mod_cast h
    push_cast at h'
    linarith

theorem attachmentError_none_iff (st : FormState) :
    attachmentError st = none ↔
      (st.attachment = none ∨ ∃ a, st.attachment = some a ∧
        (a.type = "application/pdf" ∨ a.type = "image/jpeg" ∨ a.type = "image/png") ∧
        a.size ≤ 5 * 1024 * 1024) := by
  unfold attachmentError
  cases hatt : st.attachment with
  | none => simp
  | some a =>
    simp only [reduceCtorEq, Option.some.injEq, exists_eq_left', false_or]
    rw [← allowedTypes_contains_iff]
    by_cases hsize : (a.size : ℚ) / (1024 * 1024) > (MAX_FILE_SIZE_MB : ℚ)
    · have hlt := (size_over_limit_iff a.size).mp hsize
      simp only [hsize, if_true, reduceCtorEq, false_iff, not_and, Nat.not_le]
      intro _
      exact hlt
    · have hle : a.size ≤ 5 * 1024 * 1024 :=
        Nat.not_lt.mp (fun h => hsize ((size_over_limit_iff a.size).mpr h))
      simp only [hsize, if_false, hle, and_true]
      cases ALLOWED_FILE_TYPES.contains a.type <;> simp

/-- Claim C6.  `validate` returns true exactly when the name is not blank after trimming,
the email has the shape local@domain.tld, the trimmed message has at least 20 characters
(`length`), and the attachment is absent or has an allowed type and at most 5*1024*1024
bytes; and it returns true exactly when the `errors` object it sets is the empty one. -/
theorem validate_true_iff (st : FormState) :
    ((validate st).2 = true ↔
      (jsTrim st.name ≠ "" ∧ EmailShape st.email ∧ 20 ≤ jsLength (jsTrim st.message) ∧
        (st.attachment = none ∨ ∃ a, st.attachment = some a ∧
          (a.type = "application/pdf" ∨ a.type = "image/jpeg" ∨ a.type = "image/png") ∧
          a.size ≤ 5 * 1024 * 1024))) ∧
    ((validate st).2 = true ↔ (validate st).1.errors = {}) := by
  have hret := validate_returns st
  have herr := validate_errors st
  have hall : (validate st).2 = true ↔
      (nameError st = none ∧ emailError st = none ∧ messageError st = none ∧
        attachmentError st = none) := by
    rw [hret]
    simp only [Bool.and_eq_true, Option.isNone_iff_eq_none, and_assoc]
  refine ⟨?_, ?_⟩
  · rw [hall, nameError_none_iff, emailError_none_iff, messageError_none_iff,
      attachmentError_none_iff]
  · rw [hall, herr]
    constructor
    · rintro ⟨h1, h2, h3, h4⟩
      rw [h1, h2, h3, h4]
    · intro h
      injection h with h1 h2 h3 h4
      exact ⟨h1, h2, h3, h4⟩

theorem handleSubmit_invalid (net : FetchRequest → FetchOutcome) (st : FormState)
    (h : (validate st).2 = false) :
    handleSubmit net st =
      ({ st with isSuccess := false, errors := (validate st).1.errors }, []) := by
  have hv : (validate { st with isSuccess := false }).2 = (validate st).2 := rfl
  have he : (validate { st with isSuccess := false }).1 =
      { st with isSuccess := false, errors := (validate st).1.errors } := rfl
  unfold handleSubmit
  simp only [hv, he, h]
  rfl

theorem handleSubmit_valid (net : FetchRequest → FetchOutcome) (st : FormState)
    (h : (validate st).2 = true) :
    handleSubmit net st =
      (match tryBody (net ⟨"http://localhost:3001/api/form", "POST", formData st⟩) with
       | .ok () => { initialState with isSuccess := true }
       | .error message =>
         { st with
           isSuccess := false, isSubmitting := false,
           errors := { form := some (if truthyStr message then message
                                     else "Failed to submit. Please try again later.") } },
       [⟨"http://localhost:3001/api/form", "POST", formData st⟩]) := by
  have hv : (validate { st with isSuccess := false }).2 = (validate st).2 := rfl
  unfold handleSubmit
  simp only [hv, h]
  cases tryBody (net ⟨"http://localhost:3001/api/form", "POST", formData st⟩) with
  | ok u => rfl
  | error m => rfl

theorem messageError_of_short (st : FormState) (h : jsLength st.message < 20) :
    messageError st = some (if jsTrim st.message = "" then "Message is required."
      else "Message must be at least 20 characters.") := by
  have hlen : jsLength (jsTrim st.message) < 20 :=
    Nat.lt_of_le_of_lt (jsLength_trim_le st.message) h
  unfold messageError
  cases ht : truthyStr (jsTrim st.message) with
  | false =>
    have h0 := (truthyStr_eq_false_iff _).mp ht
    simp [h0]
  | true =>
    have h0 := (truthyStr_eq_true_iff _).mp ht
    simp [h0, hlen]

/-- Claim C7, as stated, fails: an empty message is shorter than 20 characters, and the
error recorded for it is "Message is required.", not the length error. -/
theorem empty_message_required_error :
    jsLength (⟨"Ada", "ada@example.com", "", none, {}, false, false⟩ : FormState).message < 20 ∧
    (validate ⟨"Ada", "ada@example.com", "", none, {}, false, false⟩).1.errors.message =
      some "Message is required." ∧
    (handleSubmit (fun _ => .response true (.value .falsy))
        ⟨"Ada", "ada@example.com", "", none, {}, false, false⟩).1.errors.message ≠
      some "Message must be at least 20 characters." := by
  refine ⟨by decide, by decide, by decide⟩

/-- Claim C7, amended.  For a form state whose message is shorter than 20 characters,
`validate` returns false and `handleSubmit` returns without a call of `fetch`; the error
recorded for the message is "Message is required." when the message is blank and
"Message must be at least 20 characters." otherwise. -/
theorem short_message_blocked (net : FetchRequest → FetchOutcome) (st : FormState)
    (h : jsLength st.message < 20) :
    (validate st).2 = false ∧
    (handleSubmit net st).2 = [] ∧
    (handleSubmit net st).1.errors.message =
      some (if jsTrim st.message = "" then "Message is required."
        else "Message must be at least 20 characters.") := by
  have hm := messageError_of_short st h
  have hret : (validate st).2 = false := by
    rw [validate_returns, hm]
    simp
  refine ⟨hret, ?_, ?_⟩
  · rw [handleSubmit_invalid net st hret]
  · rw [handleSubmit_invalid net st hret]
    simp only [validate_errors, hm]

theorem short_message_blocked_witness :
    jsLength (⟨"Ada", "ada@example.com", "too short", none, {}, false, false⟩ :
      FormState).message < 20 ∧
    (validate ⟨"Ada", "ada@example.com", "too short", none, {}, false, false⟩).2 = false ∧
    (handleSubmit (fun _ => .response true (.value .falsy))
        ⟨"Ada", "ada@example.com", "too short", none, {}, false, false⟩).2 = [] ∧
    (handleSubmit (fun _ => .response true (.value .falsy))
        ⟨"Ada", "ada@example.com", "too short", none, {}, false, false⟩).1.errors.message =
      some (if jsTrim "too short" = "" then "Message is required."
        else "Message must be at least 20 characters.") :=
  ⟨by decide,
   short_message_blocked (fun _ => .response true (.value .falsy))
     ⟨"Ada", "ada@example.com", "too short", none, {}, false, false⟩ (by decide)⟩

theorem orFallback_eq (m fallback : String) :
    (if truthyStr m = true then m else fallback) = if m = "" then fallback else m := by
  by_cases hm : m = ""
  · rw [if_neg, if_pos hm]
    rw [(truthyStr_eq_false_iff m).mpr hm]
    exact Bool.noConfusion
  · rw [if_pos ((truthyStr_eq_true_iff m).mpr hm), if_neg hm]

theorem errorOrDefault_str (s : String) :
    errorOrDefault (.str s) = if s = "" then "Server error" else s := by
  simp only [errorOrDefault]
  exact orFallback_eq s "Server error"

/-- Claim C8, as stated, fails: a success response whose body is not JSON (here an empty
body) does not reset the form.  The fields are kept, the success indicator stays off and
the message of the parse error is shown as the form-level error. -/
theorem success_without_json_not_reset :
    (validate adaForm).2 = true ∧
    (handleSubmit (fun _ => .response true (.rejects "Unexpected end of JSON input"))
        adaForm).1 =
      ⟨"Ada", "ada@example.com", "This message is definitely long enough.", none,
        { form := some "Unexpected end of JSON input" }, false, false⟩ ∧
    (handleSubmit (fun _ => .response true (.rejects "Unexpected end of JSON input"))
        adaForm).1 ≠ ⟨"", "", "", none, {}, false, true⟩ := by
  refine ⟨by decide, by decide, by decide⟩

/-- Claim C8, amended.  For a form state that passes `validate`, `handleSubmit` makes
exactly one call of `fetch`, a POST whose body carries the entered name, email and message,
and the attachment when one is chosen.  When the response is a success whose body is JSON,
the state afterwards has empty name, email and message, no attachment, no errors,
`isSubmitting` false and `isSuccess` true.  When the response is a success whose body is
not JSON, the fields are kept, `isSubmitting` and `isSuccess` are false, and the form-level
error is the message of the parse error, or "Failed to submit. Please try again later."
when that message is empty. -/
theorem handleSubmit_success (net : FetchRequest → FetchOutcome) (st : FormState)
    (hv : (validate st).2 = true) :
    (handleSubmit net st).2 =
      [⟨"http://localhost:3001/api/form", "POST",
        [("name", .text st.name), ("email", .text st.email), ("message", .text st.message)] ++
        (match st.attachment with
         | some a => [("attachment", .file a)]
         | none => [])⟩] ∧
    (∀ body : JsonOutcome,
      net ⟨"http://localhost:3001/api/form", "POST", formData st⟩ = .response true body →
      body.parsed = true →
      (handleSubmit net st).1 = ⟨"", "", "", none, {}, false, true⟩) ∧
    (∀ m : String,
      net ⟨"http://localhost:3001/api/form", "POST", formData st⟩ =
        .response true (.rejects m) →
      (handleSubmit net st).1 =
        { st with
          isSuccess := false, isSubmitting := false,
          errors := { form := some (if m = "" then "Failed to submit. Please try again later."
                                    else m) } }) := by
  rw [handleSubmit_valid net st hv]
  refine ⟨rfl, ?_, ?_⟩
  · intro body hnet hparsed
    rw [hnet]
    cases body with
    | rejects m => exact Bool.noConfusion hparsed
    | null m => rfl
    | value v => rfl
  · intro m hnet
    rw [hnet]
    simp only [tryBody, orFallback_eq]

theorem handleSubmit_success_witness :
    (validate adaForm).2 = true ∧
    (handleSubmit (fun _ => .response true (.value .falsy)) adaForm).2 =
      [⟨"http://localhost:3001/api/form", "POST",
        [("name", .text "Ada"), ("email", .text "ada@example.com"),
         ("message", .text "This message is definitely long enough.")]⟩] ∧
    (handleSubmit (fun _ => .response true (.value .falsy)) adaForm).1 =
      ⟨"", "", "", none, {}, false, true⟩ :=
  ⟨by decide,
   (handleSubmit_success (fun _ => .response true (.value .falsy)) adaForm (by decide)).1,
   (handleSubmit_success (fun _ => .response true (.value .falsy)) adaForm (by decide)).2.1
     (.value .falsy) rfl rfl⟩

/-- Claim C9, as stated, fails: a non-success response whose body is not JSON (an HTML error
page) provides no error message, and the form-level error is the message of the parse error,
which is neither of the two fallback texts. -/
theorem non_json_error_shown :
    (validate adaForm).2 = true ∧
    providedError (.rejects "Unexpected token < in JSON at position 0") = none ∧
    (handleSubmit (fun _ => .response false (.rejects "Unexpected token < in JSON at position 0"))
        adaForm).1.errors.form = some "Unexpected token < in JSON at position 0" ∧
    "Unexpected token < in JSON at position 0" ≠ "Server error" ∧
    "Unexpected token < in JSON at position 0" ≠ "Failed to submit. Please try again later." := by
  refine ⟨by decide, rfl, by decide, by decide, by decide⟩

/-- Claim C9, amended.  For a form state that passes `validate` and a non-success response,
`handleSubmit` ends with `errors` holding only a form-level error, the fields unchanged and
no success indicator.  The error is the `error` member of the JSON body when that is a
non-empty string (its string form when it is another truthy value) and "Server error" when
the JSON body has none; it is the message of the error raised while reading the body when
the body is not JSON or is null; and it is "Failed to submit. Please try again later." when
the message so obtained is empty. -/
theorem handleSubmit_failure (net : FetchRequest → FetchOutcome) (st : FormState)
    (body : JsonOutcome) (hv : (validate st).2 = true)
    (hnet : net ⟨"http://localhost:3001/api/form", "POST", formData st⟩ =
      .response false body) :
    (handleSubmit net st).1 =
      { st with isSuccess := false, isSubmitting := false,
                errors := { form := some (formErrorText body) } } ∧
    (∀ s, providedError body = some s → (handleSubmit net st).1.errors.form = some s) ∧
    (body = .value .falsy ∨ body = .value (.str "") →
      (handleSubmit net st).1.errors.form = some "Server error") := by
  have hmain : (handleSubmit net st).1 =
      { st with isSuccess := false, isSubmitting := false,
                errors := { form := some (formErrorText body) } } := by
    rw [handleSubmit_valid net st hv, hnet]
    cases body with
    | rejects m => simp only [tryBody, formErrorText, orFallback_eq]
    | null m => simp only [tryBody, formErrorText, orFallback_eq, Bool.not_false, if_true]
    | value v =>
      cases v with
      | falsy => rfl
      | str s =>
        simp only [tryBody, formErrorText, orFallback_eq, Bool.not_false, if_true,
          errorOrDefault_str]
        by_cases hs : s = ""
        · rw [hs]; rfl
        · simp only [hs, if_false]
      | truthy t =>
        simp only [tryBody, formErrorText, orFallback_eq, Bool.not_false, if_true,
          errorOrDefault]
  refine ⟨hmain, ?_, ?_⟩
  · intro s hs
    rw [hmain]
    cases body with
    | rejects m => exact Option.noConfusion hs
    | null m => exact Option.noConfusion hs
    | value v =>
      cases v with
      | falsy => exact Option.noConfusion hs
      | truthy t => exact Option.noConfusion hs
      | str x =>
        by_cases hx : x = ""
        · simp only [providedError, hx, if_true] at hs
          exact Option.noConfusion hs
        · simp only [providedError, hx, if_false, Option.some.injEq] at hs
          subst hs
          simp only [formErrorText, hx, if_false]
  · intro hb
    rw [hmain]
    rcases hb with hb | hb <;> rw [hb] <;> rfl

theorem handleSubmit_failure_witness :
    (validate adaForm).2 = true ∧
    (handleSubmit (fun _ => .response false (.value (.str "Missing required fields.")))
        adaForm).1 =
      { adaForm with isSuccess := false, isSubmitting := false,
                     errors := { form := some "Missing required fields." } } :=
  ⟨by decide,
   (handleSubmit_failure (fun _ => .response false (.value (.str "Missing required fields.")))
      adaForm (.value (.str "Missing required fields.")) (by decide) rfl).1⟩

end FormEase
